import Mathlib

/-!
Shallow embedding of the icingadb HA controller (package icingadb_ha_lib):
the responsibility state machine, the database-mediated election protocol
over the icingadb_instance table, the critical-operation gate and the
upstream (Icinga 2) liveness predicate.  Time is modelled as integer unix
seconds; the shared table as a list of rows in database order; each tick of
the controller loop is one application of `tick` at a fixed `now`.
-/

namespace IcingadbHA

/-- responsibility tells whether we're responsible for our environment.
Constants readyForTakeover = 0, TakeoverNoSync = 1, TakeoverSync = 2,
stop = 3, notReadyForTakeover = 4 of the source. -/
inductive Responsibility where
  | readyForTakeover
  | TakeoverNoSync
  | TakeoverSync
  | stop
  | notReadyForTakeover
deriving DecidableEq, Repr

/-- responsibilityAction tells the next action on the database. -/
inductive ResponsibilityAction where
  | noAction
  | tryTakeover
  | doTakeover
  | ceaseOperation
deriving DecidableEq, Repr

/-- The HA struct: replica UUID (abstracted to Nat), last upstream heartbeat,
in-memory responsibility, responsibleSince (time.Time zero value is `none`),
the running-critical-operations counter and the last completion time. -/
structure HA where
  ourUUID : Nat
  icinga2MTime : Int
  responsibility : Responsibility
  responsibleSince : Option Int
  runningCriticalOperations : Nat
  lastCriticalOperationEnd : Int
deriving DecidableEq, Repr

/-- icinga2IsAlive returns whether Icinga 2 seems to be running:
now - icinga2MTime < 15. -/
def icinga2IsAlive (h : HA) (now : Int) : Bool :=
  now - h.icinga2MTime < 15

/-- Icinga2HeartBeat records now as the last-seen upstream time. -/
def Icinga2HeartBeat (h : HA) (now : Int) : HA :=
  { h with icinga2MTime := now }

/-- IsResponsible returns whether the responsibility is TakeoverSync. -/
def IsResponsible (h : HA) : Bool :=
  h.responsibility = Responsibility.TakeoverSync

/-- RunCriticalOperation runs op (modelled by the error value it returns) and
manages runningCriticalOperations if we're responsible.  The counter is a
uint64: increment and decrement (AddUint64 of 2^64 - 1) are taken mod 2^64.
Result: (final state, returned error, whether op was invoked). -/
def RunCriticalOperation (h : HA) (now : Int) (opErr : Option String) :
    HA × Option String × Bool :=
  match h.responsibility with
  | .TakeoverSync | .stop =>
    let mid : HA :=
      { h with runningCriticalOperations :=
          (h.runningCriticalOperations + 1) % 2 ^ 64 }
    let fin : HA :=
      { mid with
          lastCriticalOperationEnd := now,
          runningCriticalOperations :=
            (mid.runningCriticalOperations + (2 ^ 64 - 1)) % 2 ^ 64 }
    (fin, opErr, true)
  | _ => (h, none, false)

/-- One row of the icingadb_instance table: id BINARY(16) (abstracted to
Nat), environment_id, heartbeat in unix seconds, responsible CHAR(1)
(the strings written by the code are "y" and "n"). -/
structure InstanceRow where
  id : Nat
  environment_id : Nat
  heartbeat : Int
  responsible : String
deriving DecidableEq, Repr

/-- The upsert step of the election transaction:
SELECT 1 FROM icingadb_instance WHERE id = ?; if a row exists,
UPDATE icingadb_instance SET environment_id=?, heartbeat=? WHERE id = ?;
otherwise INSERT the row with responsible = "n". -/
def upsert (reg : List InstanceRow) (u envID : Nat) (now : Int) :
    List InstanceRow :=
  if reg.any (fun r => r.id == u) then
    reg.map (fun r =>
      if r.id == u then { r with environment_id := envID, heartbeat := now }
      else r)
  else
    reg ++ [⟨u, envID, now, "n"⟩]

/-- SELECT id, heartbeat FROM icingadb_instance
WHERE environment_id = ? AND responsible = 'y'. -/
def selectResponsibleRows (reg : List InstanceRow) (envID : Nat) :
    List InstanceRow :=
  reg.filter (fun r => r.environment_id == envID && r.responsible == "y")

/-- UPDATE icingadb_instance SET responsible=? WHERE environment_id = ?. -/
def setResponsibleByEnv (reg : List InstanceRow) (envID : Nat) (v : String) :
    List InstanceRow :=
  reg.map (fun r =>
    if r.environment_id == envID then { r with responsible := v } else r)

/-- UPDATE icingadb_instance SET responsible=? WHERE id = ?. -/
def setResponsibleById (reg : List InstanceRow) (u : Nat) (v : String) :
    List InstanceRow :=
  reg.map (fun r => if r.id == u then { r with responsible := v } else r)

/-- The election transaction run for tryTakeover and doTakeover: upsert this
replica's row, fetch the rows marked responsible for the environment, then
decide justTakenOver from the first such row exactly as the source does.
Result: (registry after commit, justTakenOver). -/
def electionTx (reg : List InstanceRow) (u envID : Nat) (now : Int) :
    List InstanceRow × Bool :=
  let reg1 := upsert reg u envID now
  match selectResponsibleRows reg1 envID with
  | [] => (setResponsibleById reg1 u "y", true)
  | r0 :: _ =>
    if r0.id == u then (reg1, true)
    else if now - r0.heartbeat ≥ 10 then
      (setResponsibleById (setResponsibleByEnv reg1 envID "n") u "y", true)
    else (reg1, false)

/-- The ceaseOperation transaction:
SELECT 1 WHERE environment_id = ? AND responsible = 'n' AND now - heartbeat < 10;
if a row exists, UPDATE icingadb_instance SET responsible='n' WHERE id = ?. -/
def ceaseTx (reg : List InstanceRow) (u envID : Nat) (now : Int) :
    List InstanceRow :=
  if reg.any (fun r =>
      r.environment_id == envID && r.responsible == "n" &&
        decide (now - r.heartbeat < 10)) then
    setResponsibleById reg u "n"
  else reg

/-- One pass of the first switch of the loop body.  `Sum.inl r` models
setResponsibility(r) followed by `continue`; `Sum.inr a` models falling
through with nextAction = a. -/
def tickSwitch (h : HA) (now : Int) : Sum Responsibility ResponsibilityAction :=
  match h.responsibility with
  | .readyForTakeover =>
    if icinga2IsAlive h now then .inr .tryTakeover
    else .inl .notReadyForTakeover
  | .TakeoverNoSync =>
    if icinga2IsAlive h now then .inr .tryTakeover else .inl .stop
  | .TakeoverSync =>
    if icinga2IsAlive h now then .inr .doTakeover else .inl .stop
  | .stop =>
    if h.runningCriticalOperations = 0 ∧
        now - h.lastCriticalOperationEnd ≥ 5 then .inr .ceaseOperation
    else .inr .doTakeover
  | .notReadyForTakeover =>
    if icinga2IsAlive h now then .inl .readyForTakeover else .inr .noAction

/-- Iterating the first switch until it falls through to an action.  Within
one tick `now` is fixed, so at most one `continue` can occur (proved in
`tickSwitch_no_second_continue`); the inner default branch is unreachable. -/
def decideAction (h : HA) (now : Int) : HA × ResponsibilityAction :=
  match tickSwitch h now with
  | .inr a => (h, a)
  | .inl r1 =>
    let h1 := { h with responsibility := r1 }
    match tickSwitch h1 now with
    | .inr a => (h1, a)
    | .inl r2 => ({ h1 with responsibility := r2 }, .noAction)

/-- After the election transaction commits: if justTakenOver and the
in-memory responsibility is not stop, either start the confirmation window
(responsibleSince unset) or, once now - responsibleSince ≥ 5, assign
TakeoverSync, log "Taking over" if the previous value was TakeoverNoSync,
and publish the wakeup.  Result: (state, published, logged "Taking over"). -/
def postElection (h : HA) (now : Int) (justTakenOver : Bool) :
    HA × Bool × Bool :=
  if justTakenOver ∧ h.responsibility ≠ .stop then
    match h.responsibleSince with
    | none =>
      ({ h with responsibleSince := some now,
                responsibility := .TakeoverNoSync }, false, false)
    | some since =>
      if now - since ≥ 5 then
        ({ h with responsibility := .TakeoverSync }, true,
          h.responsibility = .TakeoverNoSync)
      else (h, false, false)
  else (h, false, false)

/-- The channel the wakeup is published to; the payload is the replica UUID
in textual form. -/
def wakeupChannel : String := "icingadb:wakeup"

/-- The observable outcome of one tick of the controller loop. -/
structure TickResult where
  state : HA
  registry : List InstanceRow
  action : ResponsibilityAction
  justTakenOver : Bool
  published : Bool
  loggedTakingOver : Bool
deriving DecidableEq, Repr

/-- One tick of the controller loop body at time `now`: run the first switch
to a fixpoint, perform the decided database action, then apply the
post-action state updates. -/
def tick (h : HA) (reg : List InstanceRow) (envID : Nat) (now : Int) :
    TickResult :=
  let h1 := (decideAction h now).1
  match decideAction h now with
  | (_, .noAction) => ⟨h1, reg, .noAction, false, false, false⟩
  | (_, .ceaseOperation) =>
    let reg' := ceaseTx reg h1.ourUUID envID now
    ⟨{ h1 with responsibleSince := none,
               responsibility := .notReadyForTakeover },
      reg', .ceaseOperation, false, false, false⟩
  | (_, a) =>
    let out := electionTx reg h1.ourUUID envID now
    let post := postElection h1 now out.2
    ⟨post.1, out.1, a, out.2, post.2.1, post.2.2⟩

/-- cleanUpInstances: DELETE FROM icingadb_instance WHERE now - heartbeat >= 30. -/
def cleanUpInstances (reg : List InstanceRow) (now : Int) : List InstanceRow :=
  reg.filter (fun r => !decide (now - r.heartbeat ≥ 30))

/-- Number of rows marked responsible for the environment. -/
def responsibleCount (reg : List InstanceRow) (envID : Nat) : Nat :=
  (selectResponsibleRows reg envID).length

/-! Two-replica system for the convergence property: both replicas share the
registry and the environment, both keep their upstream heartbeats non-stale
(Icinga2HeartBeat runs just before each tick), and every second each replica
ticks once; the schedule chooses the interleaving order per second.  The
serializable election transactions of the source justify whole-tick
granularity. -/

/-- The pair of replicas and the shared icingadb_instance table. -/
structure Cluster where
  a : HA
  b : HA
  registry : List InstanceRow
deriving DecidableEq, Repr

/-- One replica's second: refresh the upstream heartbeat (non-stale
hypothesis of the schedule), then run one controller tick. -/
def replicaTick (h : HA) (reg : List InstanceRow) (envID : Nat) (now : Int) :
    HA × List InstanceRow :=
  let res := tick (Icinga2HeartBeat h now) reg envID now
  (res.state, res.registry)

/-- One second of the two-replica system; `aFirst` is the schedule's choice
of which replica's election transaction serializes first. -/
def sysStep (aFirst : Bool) (s : Cluster) (envID : Nat) (now : Int) : Cluster :=
  if aFirst then
    let pa := replicaTick s.a s.registry envID now
    let pb := replicaTick s.b pa.2 envID now
    ⟨pa.1, pb.1, pb.2⟩
  else
    let pb := replicaTick s.b s.registry envID now
    let pa := replicaTick s.a pb.2 envID now
    ⟨pa.1, pb.1, pa.2⟩

/-- A replica as it starts the loop: zero-valued responsibility
(readyForTakeover), responsibleSince unset, counters zero. -/
def initHA (u : Nat) : HA := ⟨u, 0, .readyForTakeover, none, 0, 0⟩

/-- The system after n seconds, from an empty registry, under schedule σ. -/
def sysRun (σ : Nat → Bool) (uA uB envID : Nat) : Nat → Cluster
  | 0 => ⟨initHA uA, initHA uB, []⟩
  | n + 1 => sysStep (σ n) (sysRun σ uA uB envID n) envID n

/-- The replica holding responsibility after n ≥ 1 seconds of the
two-replica run: it claimed at second 0 and enters TakeoverSync at the tick
of second 5 (so from the state at n = 6 on). -/
def holderHA (u : Nat) (n : Nat) : HA :=
  ⟨u, (n : Int) - 1,
    if 6 ≤ n then .TakeoverSync else .TakeoverNoSync, some 0, 0, 0⟩

/-- The standby replica after n ≥ 1 seconds: it stays readyForTakeover. -/
def standbyHA (u : Nat) (n : Nat) : HA :=
  ⟨u, (n : Int) - 1, .readyForTakeover, none, 0, 0⟩

/-- The registry after n ≥ 1 seconds: the winner's row responsible, the
loser's not, both heartbeats refreshed at second n - 1. -/
def convergedReg (uW uL envID : Nat) (n : Nat) : List InstanceRow :=
  [⟨uW, envID, (n : Int) - 1, "y"⟩, ⟨uL, envID, (n : Int) - 1, "n"⟩]

/-! Basic lemmas about the embedding. -/

lemma icinga2IsAlive_eq_true {h : HA} {now : Int} :
    icinga2IsAlive h now = true ↔ now - h.icinga2MTime < 15 := by
  simp [icinga2IsAlive]

lemma icinga2IsAlive_eq_false {h : HA} {now : Int} :
    icinga2IsAlive h now = false ↔ ¬(now - h.icinga2MTime < 15) := by
  simp [icinga2IsAlive]

lemma icinga2IsAlive_update (h : HA) (r : Responsibility) (now : Int) :
    icinga2IsAlive { h with responsibility := r } now = icinga2IsAlive h now :=
  rfl

/-- The first switch hands a continuation only to notReadyForTakeover, stop
or readyForTakeover. -/
lemma tickSwitch_inl (h : HA) (now : Int) (r : Responsibility)
    (heq : tickSwitch h now = .inl r) :
    r = .notReadyForTakeover ∨ r = .stop ∨ r = .readyForTakeover := by
  by_cases hal : now - h.icinga2MTime < 15 <;>
    by_cases hd : h.runningCriticalOperations = 0 ∧
        now - h.lastCriticalOperationEnd ≥ 5 <;>
    rcases hr : h.responsibility <;>
    simp [tickSwitch, icinga2IsAlive, hr, hal, hd] at heq <;>
    simp_all

/-- After one continuation of the first switch, the second pass always falls
through to an action: the inner default branch of decideAction is
unreachable. -/
lemma tickSwitch_no_second_continue (h : HA) (now : Int) (r : Responsibility)
    (heq : tickSwitch h now = .inl r) :
    ∃ a, tickSwitch { h with responsibility := r } now = .inr a := by
  by_cases hal : now - h.icinga2MTime < 15 <;>
    by_cases hd : h.runningCriticalOperations = 0 ∧
        now - h.lastCriticalOperationEnd ≥ 5 <;>
    rcases hr : h.responsibility <;>
    simp [tickSwitch, icinga2IsAlive, hr, hal, hd] at heq <;>
    (try subst heq) <;>
    simp [tickSwitch, icinga2IsAlive, hal, hd]

/-- decideAction only rewrites the responsibility field. -/
lemma decideAction_fields (h : HA) (now : Int) :
    (decideAction h now).1 =
      { h with responsibility := (decideAction h now).1.responsibility } := by
  rcases h1 : tickSwitch h now with r1 | a
  · rcases h2 : tickSwitch { h with responsibility := r1 } now with r2 | a2 <;>
      simp [decideAction, h1, h2]
  · simp [decideAction, h1]

/-- The responsibility decideAction leaves in place is the original one or a
value some continuation produced. -/
lemma decideAction_resp (h : HA) (now : Int) :
    (decideAction h now).1.responsibility = h.responsibility ∨
    (decideAction h now).1.responsibility = .notReadyForTakeover ∨
    (decideAction h now).1.responsibility = .stop ∨
    (decideAction h now).1.responsibility = .readyForTakeover := by
  rcases h1 : tickSwitch h now with r1 | a
  · rcases h2 : tickSwitch { h with responsibility := r1 } now with r2 | a2
    · have hv2 := tickSwitch_inl _ now r2 h2
      simp only [decideAction, h1, h2]
      rcases hv2 with h' | h' | h' <;> simp [h']
    · have hv := tickSwitch_inl h now r1 h1
      simp only [decideAction, h1, h2]
      rcases hv with h' | h' | h' <;> simp [h']
  · simp [decideAction, h1]

/-- decideAction never sets TakeoverSync itself. -/
lemma decideAction_sync (h : HA) (now : Int)
    (hs : (decideAction h now).1.responsibility = .TakeoverSync) :
    h.responsibility = .TakeoverSync := by
  rcases decideAction_resp h now with h' | h' | h' | h' <;> rw [hs] at h' <;>
    first
    | exact h'.symm
    | exact absurd h' (by simp)

/-- Case analysis of one tick by the decided action. -/
lemma tick_cases (h : HA) (reg : List InstanceRow) (envID : Nat) (now : Int) :
    ((decideAction h now).2 = .noAction ∧
      tick h reg envID now =
        ⟨(decideAction h now).1, reg, .noAction, false, false, false⟩)
    ∨ ((decideAction h now).2 = .ceaseOperation ∧
      tick h reg envID now =
        ⟨{ (decideAction h now).1 with
             responsibleSince := none
             responsibility := .notReadyForTakeover },
          ceaseTx reg (decideAction h now).1.ourUUID envID now,
          .ceaseOperation, false, false, false⟩)
    ∨ (((decideAction h now).2 = .tryTakeover ∨
        (decideAction h now).2 = .doTakeover) ∧
      tick h reg envID now =
        ⟨(postElection (decideAction h now).1 now
            (electionTx reg (decideAction h now).1.ourUUID envID now).2).1,
          (electionTx reg (decideAction h now).1.ourUUID envID now).1,
          (decideAction h now).2,
          (electionTx reg (decideAction h now).1.ourUUID envID now).2,
          (postElection (decideAction h now).1 now
            (electionTx reg (decideAction h now).1.ourUUID envID now).2).2.1,
          (postElection (decideAction h now).1 now
            (electionTx reg (decideAction h now).1.ourUUID envID now).2).2.2⟩) := by
  rcases hda : decideAction h now with ⟨h1, a⟩
  rcases a <;> simp [tick, hda]

lemma postElection_false (h : HA) (now : Int) :
    postElection h now false = (h, false, false) := by
  simp [postElection]

lemma postElection_stop (h : HA) (now : Int) (jto : Bool)
    (hs : h.responsibility = .stop) :
    postElection h now jto = (h, false, false) := by
  simp [postElection, hs]

lemma postElection_start (h : HA) (now : Int)
    (hs : h.responsibility ≠ .stop) (hn : h.responsibleSince = none) :
    postElection h now true =
      ({ h with
           responsibleSince := some now
           responsibility := .TakeoverNoSync }, false, false) := by
  simp [postElection, hs, hn]

lemma postElection_confirm (h : HA) (now : Int) (s : Int)
    (hs : h.responsibility ≠ .stop) (hn : h.responsibleSince = some s)
    (h5 : now - s ≥ 5) :
    postElection h now true =
      ({ h with responsibility := .TakeoverSync }, true,
        decide (h.responsibility = .TakeoverNoSync)) := by
  simp [postElection, hs, hn, h5]

lemma postElection_wait (h : HA) (now : Int) (s : Int)
    (hs : h.responsibility ≠ .stop) (hn : h.responsibleSince = some s)
    (h5 : ¬(now - s ≥ 5)) :
    postElection h now true = (h, false, false) := by
  simp [postElection, hs, hn, h5]

/-- C9: the Upsert step of the election transaction, when a row with this
replica's id exists, updates only that row's environment_id and heartbeat
(its responsible column and every other row are untouched); when no such
row exists, it inserts a new row for this replica with responsible = "n". -/
theorem ha_C9 (reg : List InstanceRow) (u envID : Nat) (now : Int) :
    ((∃ r ∈ reg, r.id = u) →
      (upsert reg u envID now).length = reg.length ∧
      ∀ i : Nat, ∀ r : InstanceRow, reg[i]? = some r →
        (upsert reg u envID now)[i]? =
          some (if r.id = u then
                  { r with environment_id := envID, heartbeat := now }
                else r))
    ∧ ((¬ ∃ r ∈ reg, r.id = u) →
      upsert reg u envID now = reg ++ [⟨u, envID, now, "n"⟩]) := by
  constructor
  · intro hex
    have hany : reg.any (fun r => r.id == u) = true := by
      simp only [List.any_eq_true, beq_iff_eq]
      exact hex
    unfold upsert
    rw [if_pos hany]
    refine ⟨List.length_map _ _, ?_⟩
    intro i r hr
    rw [List.getElem?_map, hr]
    by_cases hc : r.id = u
    · simp [hc]
    · simp [hc]
  · intro hnex
    have hany : reg.any (fun r => r.id == u) = false := by
      simp only [List.any_eq_false, beq_iff_eq]
      intro r hr hc
      exact hnex ⟨r, hr, hc⟩
    unfold upsert
    rw [if_neg (by simp [hany])]

/-- C6: the ceaseOperation transaction sets this replica's row to
responsible = "n" only when some row of the environment has
responsible = "n" and a heartbeat strictly less than 10 seconds old
(only the responsible column of rows with this replica's id changes);
otherwise the registry is left unchanged. -/
theorem ha_C6 (reg : List InstanceRow) (u envID : Nat) (now : Int) :
    ((∃ r ∈ reg, r.environment_id = envID ∧ r.responsible = "n" ∧
        now - r.heartbeat < 10) →
      (ceaseTx reg u envID now).length = reg.length ∧
      ∀ i : Nat, ∀ r : InstanceRow, reg[i]? = some r →
        (ceaseTx reg u envID now)[i]? =
          some (if r.id = u then { r with responsible := "n" } else r))
    ∧ ((¬ ∃ r ∈ reg, r.environment_id = envID ∧ r.responsible = "n" ∧
        now - r.heartbeat < 10) →
      ceaseTx reg u envID now = reg) := by
  constructor
  · intro hex
    have hany : reg.any (fun r =>
        r.environment_id == envID && r.responsible == "n" &&
          decide (now - r.heartbeat < 10)) = true := by
      simp only [List.any_eq_true, Bool.and_eq_true, beq_iff_eq,
        decide_eq_true_eq]
      obtain ⟨r, hr, h1, h2, h3⟩ := hex
      exact ⟨r, hr, ⟨h1, h2⟩, h3⟩
    unfold ceaseTx
    rw [if_pos hany]
    refine ⟨List.length_map _ _, ?_⟩
    intro i r hr
    rw [setResponsibleById, List.getElem?_map, hr]
    by_cases hc : r.id = u
    · simp [hc]
    · simp [hc]
  · intro hnex
    have hany : reg.any (fun r =>
        r.environment_id == envID && r.responsible == "n" &&
          decide (now - r.heartbeat < 10)) = false := by
      by_contra hb
      rw [Bool.not_eq_false, List.any_eq_true] at hb
      obtain ⟨r, hr, hp⟩ := hb
      simp only [Bool.and_eq_true, beq_iff_eq, decide_eq_true_eq] at hp
      exact hnex ⟨r, hr, hp.1.1, hp.1.2, hp.2⟩
    unfold ceaseTx
    rw [if_neg (by simp [hany])]

/-- C8: RunCriticalOperation, in responsibility state TakeoverSync or stop,
invokes op, records the completion time, takes the in-flight counter through
an increment and a decrement (so its final value is the original), and
returns op's error verbatim; in every other state it returns nil without
invoking op; it never modifies the responsibility state. -/
theorem ha_C8 (h : HA) (now : Int) (opErr : Option String) :
    ((h.responsibility = .TakeoverSync ∨ h.responsibility = .stop) →
      (RunCriticalOperation h now opErr).2.1 = opErr ∧
      (RunCriticalOperation h now opErr).2.2 = true ∧
      (RunCriticalOperation h now opErr).1.lastCriticalOperationEnd = now ∧
      (h.runningCriticalOperations < 2 ^ 64 →
        (RunCriticalOperation h now opErr).1.runningCriticalOperations =
          h.runningCriticalOperations))
    ∧ ((h.responsibility ≠ .TakeoverSync ∧ h.responsibility ≠ .stop) →
      RunCriticalOperation h now opErr = (h, none, false))
    ∧ (RunCriticalOperation h now opErr).1.responsibility =
        h.responsibility := by
  rcases hr : h.responsibility with _ | _ | _ | _ | _ <;>
    simp only [RunCriticalOperation, hr] <;>
    refine ⟨?_, ?_, ?_⟩ <;>
    try simp_all
  · intro hlt
    omega
  · intro hlt
    omega

/-- C7: per-tick liveness transitions of the first switch, with upstream
alive meaning now - icinga2MTime < 15: ReadyForTakeover and not alive goes
to NotReadyForTakeover; TakeoverNoSync or TakeoverSync and not alive goes
to stop; NotReadyForTakeover and alive goes back to ReadyForTakeover;
NotReadyForTakeover and not alive decides noAction and leaves the state
unchanged. -/
theorem ha_C7 (h : HA) (now : Int) :
    ((h.responsibility = .readyForTakeover → ¬(now - h.icinga2MTime < 15) →
      (decideAction h now).1.responsibility = .notReadyForTakeover)
    ∧ (h.responsibility = .TakeoverNoSync → ¬(now - h.icinga2MTime < 15) →
      (decideAction h now).1.responsibility = .stop)
    ∧ (h.responsibility = .TakeoverSync → ¬(now - h.icinga2MTime < 15) →
      (decideAction h now).1.responsibility = .stop))
    ∧ ((h.responsibility = .notReadyForTakeover → now - h.icinga2MTime < 15 →
      (decideAction h now).1.responsibility = .readyForTakeover)
    ∧ (h.responsibility = .notReadyForTakeover → ¬(now - h.icinga2MTime < 15) →
      decideAction h now = (h, .noAction))) := by
  constructor
  · refine ⟨?_, ?_, ?_⟩
    · intro hr hn
      simp [decideAction, tickSwitch, icinga2IsAlive, hr, hn]
    · intro hr hn
      by_cases hd : h.runningCriticalOperations = 0 ∧
          now - h.lastCriticalOperationEnd ≥ 5 <;>
        simp [decideAction, tickSwitch, icinga2IsAlive, hr, hn, hd]
    · intro hr hn
      by_cases hd : h.runningCriticalOperations = 0 ∧
          now - h.lastCriticalOperationEnd ≥ 5 <;>
        simp [decideAction, tickSwitch, icinga2IsAlive, hr, hn, hd]
  · constructor
    · intro hr hn
      simp [decideAction, tickSwitch, icinga2IsAlive, hr, hn]
    · intro hr hn
      simp [decideAction, tickSwitch, icinga2IsAlive, hr, hn]

/-- A tick can only assign TakeoverSync through the confirmed branch of
postElection: responsibleSince was already set at least 5 seconds ago and is
left unchanged. -/
lemma tick_enter_sync (h : HA) (reg : List InstanceRow) (envID : Nat)
    (now : Int)
    (hsync : (tick h reg envID now).state.responsibility = .TakeoverSync)
    (hne : h.responsibility ≠ .TakeoverSync) :
    ∃ s : Int, h.responsibleSince = some s ∧ now - s ≥ 5 ∧
      (tick h reg envID now).state.responsibleSince = some s := by
  have hfld := decideAction_fields h now
  have hsince : (decideAction h now).1.responsibleSince = h.responsibleSince := by
    rw [hfld]
  rcases tick_cases h reg envID now with ⟨hna, ht⟩ | ⟨hce, ht⟩ | ⟨hel, ht⟩
  · rw [ht] at hsync
    exact absurd (decideAction_sync h now hsync) hne
  · rw [ht] at hsync
    simp at hsync
  · rw [ht] at hsync ⊢
    rcases hb : (electionTx reg (decideAction h now).1.ourUUID envID now).2 with _ | _
    · rw [hb] at hsync
      rw [postElection_false] at hsync ⊢
      exact absurd (decideAction_sync h now hsync) hne
    · rw [hb] at hsync
      by_cases hstop : (decideAction h now).1.responsibility = .stop
      · rw [postElection_stop _ now true hstop] at hsync ⊢
        exact absurd (decideAction_sync h now hsync) hne
      · rcases hs : (decideAction h now).1.responsibleSince with _ | s
        · rw [postElection_start _ now hstop hs] at hsync
          simp at hsync
        · by_cases h5 : now - s ≥ 5
          · rw [postElection_confirm _ now s hstop hs h5] at hsync ⊢
            refine ⟨s, ?_, h5, ?_⟩
            · rw [← hsince]
              exact hs
            · simpa using hs
          · rw [postElection_wait _ now s hstop hs h5] at hsync ⊢
            exact absurd (decideAction_sync h now hsync) hne

/-- A tick with justTakenOver, in-memory state not stop and responsibleSince
unset only starts the confirmation window: it records now and transitions
to TakeoverNoSync. -/
lemma tick_first_claim (h : HA) (reg : List InstanceRow) (envID : Nat)
    (now : Int)
    (hnone : h.responsibleSince = none)
    (hj : (tick h reg envID now).justTakenOver = true)
    (hnstop : (decideAction h now).1.responsibility ≠ .stop) :
    (tick h reg envID now).state.responsibility = .TakeoverNoSync ∧
    (tick h reg envID now).state.responsibleSince = some now := by
  have hfld := decideAction_fields h now
  have hsince : (decideAction h now).1.responsibleSince = none := by
    rw [hfld]
    exact hnone
  rcases tick_cases h reg envID now with ⟨hna, ht⟩ | ⟨hce, ht⟩ | ⟨hel, ht⟩
  · rw [ht] at hj
    simp at hj
  · rw [ht] at hj
    simp at hj
  · rw [ht] at hj ⊢
    simp only at hj
    rw [hj, postElection_start _ now hnstop hsince]
    exact ⟨rfl, rfl⟩

/-- The ceaseOperation branch of a tick unconditionally zeroes
responsibleSince and assigns notReadyForTakeover, whatever the transaction
did to the registry. -/
lemma tick_cease_resets (h : HA) (reg : List InstanceRow) (envID : Nat)
    (now : Int)
    (hc : (decideAction h now).2 = .ceaseOperation) :
    (tick h reg envID now).state.responsibleSince = none ∧
    (tick h reg envID now).state.responsibility = .notReadyForTakeover := by
  rcases tick_cases h reg envID now with ⟨hna, ht⟩ | ⟨hce, ht⟩ | ⟨hel, ht⟩
  · rw [hna] at hc
    cases hc
  · rw [ht]
    exact ⟨rfl, rfl⟩
  · rcases hel with hel | hel <;> rw [hel] at hc <;> cases hc

/-- C3: TakeoverSync is assigned only when responsibleSince is already set
and now - responsibleSince ≥ 5 (and responsibleSince survives the tick);
on the first successful claim, with responsibleSince unset, the tick only
records responsibleSince = now and transitions to TakeoverNoSync. -/
theorem ha_C3 (h : HA) (reg : List InstanceRow) (envID : Nat) (now : Int) :
    ((tick h reg envID now).state.responsibility = .TakeoverSync →
      h.responsibility ≠ .TakeoverSync →
      ∃ s : Int, h.responsibleSince = some s ∧ now - s ≥ 5 ∧
        (tick h reg envID now).state.responsibleSince = some s)
    ∧ (h.responsibleSince = none →
      (tick h reg envID now).justTakenOver = true →
      (decideAction h now).1.responsibility ≠ .stop →
      (tick h reg envID now).state.responsibility = .TakeoverNoSync ∧
      (tick h reg envID now).state.responsibleSince = some now) :=
  ⟨fun hsync hne => tick_enter_sync h reg envID now hsync hne,
   fun hnone hj hnstop => tick_first_claim h reg envID now hnone hj hnstop⟩

/-- C4: from state stop the decided action is ceaseOperation exactly when
the critical-operation gate is drained (zero in-flight operations and at
least 5 seconds since the last completion), otherwise doTakeover; the tick
from stop reaches notReadyForTakeover only when the gate was drained. -/
theorem ha_C4 (h : HA) (reg : List InstanceRow) (envID : Nat) (now : Int)
    (hstop : h.responsibility = .stop) :
    ((decideAction h now).2 = .ceaseOperation ↔
      (h.runningCriticalOperations = 0 ∧
        now - h.lastCriticalOperationEnd ≥ 5))
    ∧ ((decideAction h now).2 ≠ .ceaseOperation →
      (decideAction h now).2 = .doTakeover)
    ∧ ((tick h reg envID now).state.responsibility = .notReadyForTakeover →
      h.runningCriticalOperations = 0 ∧
        now - h.lastCriticalOperationEnd ≥ 5) := by
  by_cases hd : h.runningCriticalOperations = 0 ∧
      now - h.lastCriticalOperationEnd ≥ 5
  · have hda : decideAction h now = (h, .ceaseOperation) := by
      simp [decideAction, tickSwitch, hstop, hd]
    exact ⟨by simp [hda, hd], by simp [hda], fun _ => hd⟩
  · have hda : decideAction h now = (h, .doTakeover) := by
      simp [decideAction, tickSwitch, hstop, hd]
    refine ⟨by simp [hda, hd], by simp [hda], ?_⟩
    rcases tick_cases h reg envID now with ⟨hna, ht⟩ | ⟨hce, ht⟩ | ⟨hel, ht⟩
    · rw [hda] at hna
      cases hna
    · rw [hda] at hce
      cases hce
    · rw [ht]
      intro hcontr
      rw [hda] at hcontr
      simp only [postElection_stop h now _ hstop] at hcontr
      rw [hstop] at hcontr
      cases hcontr

/-- C4 witness: a drained replica in state stop at time 5 with counters at
zero decides ceaseOperation. -/
theorem ha_C4_witness :
    (decideAction ⟨0, 0, .stop, none, 0, 0⟩ 5).2 = .ceaseOperation :=
  (ha_C4 ⟨0, 0, .stop, none, 0, 0⟩ [] 0 5 rfl).1.mpr (by decide)

/-- C10: after any ceaseOperation tick the controller unconditionally zeroes
responsibleSince and moves to notReadyForTakeover, whether or not the
registry row was released; a later successful claim with responsibleSince
unset restarts the confirmation window through TakeoverNoSync. -/
theorem ha_C10 (h : HA) (reg : List InstanceRow) (envID : Nat) (now : Int) :
    ((decideAction h now).2 = .ceaseOperation →
      (tick h reg envID now).state.responsibleSince = none ∧
      (tick h reg envID now).state.responsibility = .notReadyForTakeover)
    ∧ (h.responsibleSince = none →
      (tick h reg envID now).justTakenOver = true →
      (decideAction h now).1.responsibility ≠ .stop →
      (tick h reg envID now).state.responsibility = .TakeoverNoSync ∧
      (tick h reg envID now).state.responsibleSince = some now) :=
  ⟨fun hc => tick_cease_resets h reg envID now hc,
   fun hnone hj hnstop => tick_first_claim h reg envID now hnone hj hnstop⟩

/-- C5 counterexample: a replica already in TakeoverSync (doTakeover tick,
incumbent is itself, responsibleSince 100 seconds old) publishes the wakeup
again although no TakeoverNoSync to TakeoverSync transition occurs on that
tick (the "Taking over" log does not fire). -/
theorem ha_C5_counterexample :
    (tick (⟨1, 100, .TakeoverSync, some 0, 0, 0⟩ : HA)
        [⟨1, 2, 99, "y"⟩] 2 100).published = true ∧
    (decideAction (⟨1, 100, .TakeoverSync, some 0, 0, 0⟩ : HA)
        100).1.responsibility = .TakeoverSync ∧
    (tick (⟨1, 100, .TakeoverSync, some 0, 0, 0⟩ : HA)
        [⟨1, 2, 99, "y"⟩] 2 100).loggedTakingOver = false := by
  decide

/-- C5 amended: the wakeup (payload: the replica UUID, textual) goes to
channel icingadb:wakeup and is published on every election tick where
justTakenOver holds, the state entering the post-election step is not stop,
responsibleSince is set and now - responsibleSince ≥ 5 — the promotion tick
and every later renewal tick in TakeoverSync alike; the "Taking over" log
fires exactly when such a publish happens and the prior state was
TakeoverNoSync. -/
theorem ha_C5_amended (h : HA) (reg : List InstanceRow) (envID : Nat)
    (now : Int) :
    ((tick h reg envID now).published = true ↔
      ((tick h reg envID now).justTakenOver = true ∧
       (decideAction h now).1.responsibility ≠ .stop ∧
       ∃ s : Int, h.responsibleSince = some s ∧ now - s ≥ 5))
    ∧ ((tick h reg envID now).loggedTakingOver = true ↔
      ((tick h reg envID now).published = true ∧
       (decideAction h now).1.responsibility = .TakeoverNoSync))
    ∧ wakeupChannel = "icingadb:wakeup" := by
  have hfld := decideAction_fields h now
  have hsince : (decideAction h now).1.responsibleSince = h.responsibleSince := by
    rw [hfld]
  refine ⟨?_, ?_, rfl⟩ <;>
  · rcases tick_cases h reg envID now with ⟨hna, ht⟩ | ⟨hce, ht⟩ | ⟨hel, ht⟩
    · rw [ht]
      simp
    · rw [ht]
      simp
    · rw [ht]
      rcases hb : (electionTx reg (decideAction h now).1.ourUUID envID now).2 with _ | _
      · rw [postElection_false]
        simp
      · by_cases hstop : (decideAction h now).1.responsibility = .stop
        · rw [postElection_stop _ now true hstop]
          simp [hstop]
        · rcases hs : (decideAction h now).1.responsibleSince with _ | s
          · rw [postElection_start _ now hstop hs]
            rw [hs] at hsince
            simp [← hsince]
          · by_cases h5 : now - s ≥ 5
            · rw [postElection_confirm _ now s hstop hs h5]
              rw [hs] at hsince
              simp [← hsince, hstop, h5]
            · rw [postElection_wait _ now s hstop hs h5]
              rw [hs] at hsince
              simp [← hsince, h5]

lemma upsert_mem_id (reg : List InstanceRow) (u envID : Nat) (now : Int) :
    ∃ r ∈ upsert reg u envID now, r.id = u := by
  unfold upsert
  by_cases hany : reg.any (fun r => r.id == u) = true
  · rw [if_pos hany]
    rw [List.any_eq_true] at hany
    obtain ⟨r, hr, hid⟩ := hany
    rw [beq_iff_eq] at hid
    refine ⟨{ r with environment_id := envID, heartbeat := now }, ?_, hid⟩
    have hm := List.mem_map_of_mem
      (fun r => if r.id == u then
        { r with environment_id := envID, heartbeat := now } else r) hr
    simpa [hid] using hm
  · rw [if_neg hany]
    exact ⟨⟨u, envID, now, "n"⟩, by simp, rfl⟩

lemma mem_setResponsibleById (reg : List InstanceRow) (u : Nat) (v : String)
    (x : InstanceRow) (hx : x ∈ setResponsibleById reg u v) :
    ∃ r ∈ reg, x = if r.id = u then { r with responsible := v } else r := by
  unfold setResponsibleById at hx
  obtain ⟨r, hr, heq⟩ := List.mem_map.mp hx
  refine ⟨r, hr, ?_⟩
  by_cases hc : r.id = u <;> simp [beq_iff_eq, hc] at heq <;> simp [hc, ← heq]

lemma mem_setResponsibleByEnv (reg : List InstanceRow) (envID : Nat)
    (v : String) (x : InstanceRow) (hx : x ∈ setResponsibleByEnv reg envID v) :
    ∃ r ∈ reg,
      x = if r.environment_id = envID then { r with responsible := v }
          else r := by
  unfold setResponsibleByEnv at hx
  obtain ⟨r, hr, heq⟩ := List.mem_map.mp hx
  refine ⟨r, hr, ?_⟩
  by_cases hc : r.environment_id = envID <;>
    simp [beq_iff_eq, hc] at heq <;> simp [hc, ← heq]

lemma setResponsibleById_mem_of_mem (reg : List InstanceRow) (u : Nat)
    (v : String) (r : InstanceRow) (hr : r ∈ reg) (hid : r.id = u) :
    { r with responsible := v } ∈ setResponsibleById reg u v := by
  unfold setResponsibleById
  have hm := List.mem_map_of_mem
    (fun r => if r.id == u then { r with responsible := v } else r) hr
  simpa [hid] using hm

lemma setResponsibleByEnv_exists_id (reg : List InstanceRow) (envID : Nat)
    (v : String) (u : Nat) (hex : ∃ r ∈ reg, r.id = u) :
    ∃ r ∈ setResponsibleByEnv reg envID v, r.id = u := by
  obtain ⟨r, hr, hid⟩ := hex
  refine ⟨_, List.mem_map_of_mem
    (fun r => if r.environment_id == envID then { r with responsible := v }
              else r) hr, ?_⟩
  by_cases hre : r.environment_id = envID <;> simp [hre, hid]

lemma setResponsibleById_exists_id (reg : List InstanceRow) (u : Nat)
    (v : String) (hex : ∃ r ∈ reg, r.id = u) :
    ∃ r ∈ setResponsibleById reg u v, r.id = u := by
  obtain ⟨r, hr, hid⟩ := hex
  refine ⟨_, List.mem_map_of_mem
    (fun r => if r.id == u then { r with responsible := v } else r) hr, ?_⟩
  by_cases hc : r.id = u <;> simp [hc, hid]

/-- Every row of setResponsibleById reg u v whose id is u carries v. -/
lemma setResponsibleById_id_val (reg : List InstanceRow) (u : Nat)
    (v : String) :
    ∀ x ∈ setResponsibleById reg u v, x.id = u → x.responsible = v := by
  intro x hx hxid
  obtain ⟨m, hm, hxeq⟩ := mem_setResponsibleById reg u v x hx
  by_cases hmid : m.id = u
  · rw [hxeq]
    simp [hmid]
  · rw [hxeq] at hxid
    simp [hmid] at hxid

lemma electionTx_empty (reg : List InstanceRow) (u envID : Nat) (now : Int)
    (hsel : selectResponsibleRows (upsert reg u envID now) envID = []) :
    electionTx reg u envID now =
      (setResponsibleById (upsert reg u envID now) u "y", true) := by
  simp only [electionTx]
  rw [hsel]

lemma electionTx_incumbent (reg : List InstanceRow) (u envID : Nat)
    (now : Int) (r0 : InstanceRow) (rest : List InstanceRow)
    (hsel : selectResponsibleRows (upsert reg u envID now) envID =
      r0 :: rest) :
    electionTx reg u envID now =
      (if r0.id == u then (upsert reg u envID now, true)
       else if now - r0.heartbeat ≥ 10 then
         (setResponsibleById
           (setResponsibleByEnv (upsert reg u envID now) envID "n") u "y",
          true)
       else (upsert reg u envID now, false)) := by
  simp only [electionTx]
  rw [hsel]

/-- C2: after the upsert, the election transaction sets justTakenOver
exactly when (a) no row of the environment is marked responsible, (b) the
responsible row is this replica's, or (c) the responsible row's heartbeat is
at least 10 seconds stale; in case (a) it claims responsibility (this
replica's rows end marked "y"), in case (c) it claims and demotes every
other row of the environment to "n", in case (b) it writes nothing more,
and with a fresh foreign incumbent justTakenOver is false and the registry
is exactly the upserted one. -/
theorem ha_C2 (reg : List InstanceRow) (u envID : Nat) (now : Int)
    (huniq : (selectResponsibleRows (upsert reg u envID now) envID).length ≤ 1) :
    ((electionTx reg u envID now).2 = true ↔
      (selectResponsibleRows (upsert reg u envID now) envID = [] ∨
       ∃ r0 : InstanceRow,
         selectResponsibleRows (upsert reg u envID now) envID = [r0] ∧
         (r0.id = u ∨ now - r0.heartbeat ≥ 10)))
    ∧ (selectResponsibleRows (upsert reg u envID now) envID = [] →
      (electionTx reg u envID now).1 =
        setResponsibleById (upsert reg u envID now) u "y" ∧
      ∃ r ∈ (electionTx reg u envID now).1, r.id = u ∧ r.responsible = "y")
    ∧ (∀ r0 : InstanceRow,
      selectResponsibleRows (upsert reg u envID now) envID = [r0] →
      r0.id = u → (electionTx reg u envID now).1 = upsert reg u envID now)
    ∧ (∀ r0 : InstanceRow,
      selectResponsibleRows (upsert reg u envID now) envID = [r0] →
      r0.id ≠ u → now - r0.heartbeat ≥ 10 →
      (∀ r ∈ (electionTx reg u envID now).1, r.id = u →
        r.responsible = "y") ∧
      (∀ r ∈ (electionTx reg u envID now).1,
        r.environment_id = envID → r.id ≠ u → r.responsible = "n") ∧
      (∃ r ∈ (electionTx reg u envID now).1, r.id = u ∧ r.responsible = "y"))
    ∧ (∀ r0 : InstanceRow,
      selectResponsibleRows (upsert reg u envID now) envID = [r0] →
      r0.id ≠ u → ¬(now - r0.heartbeat ≥ 10) →
      (electionTx reg u envID now).2 = false ∧
      (electionTx reg u envID now).1 = upsert reg u envID now) := by
  rcases hsel : selectResponsibleRows (upsert reg u envID now) envID with
    _ | ⟨r0, rest⟩
  · rw [electionTx_empty reg u envID now hsel]
    refine ⟨by simp, fun _ => ⟨rfl, ?_⟩, by simp, by simp, by simp⟩
    obtain ⟨r, hr, hid⟩ := upsert_mem_id reg u envID now
    exact ⟨{ r with responsible := "y" },
      setResponsibleById_mem_of_mem _ u "y" r hr hid, hid, rfl⟩
  · have hrest : rest = [] := by
      rw [hsel] at huniq
      cases rest
      · rfl
      · simp at huniq
    subst hrest
    rw [electionTx_incumbent reg u envID now r0 [] hsel]
    by_cases hid : r0.id = u
    · simp only [hid, beq_self_eq_true, if_true]
      refine ⟨by simp [hid], by simp, ?_, ?_, ?_⟩
      · intro r0' heq _
        trivial
      · intro r0' heq hne _
        simp only [List.cons.injEq, and_true] at heq
        subst heq
        exact absurd hid hne
      · intro r0' heq hne _
        simp only [List.cons.injEq, and_true] at heq
        subst heq
        exact absurd hid hne
    · have hidb : (r0.id == u) = false := by
        simp [hid]
      rw [hidb]
      simp only [Bool.false_eq_true, if_false]
      by_cases h10 : now - r0.heartbeat ≥ 10
      · rw [if_pos h10]
        refine ⟨?_, by simp, ?_, ?_, ?_⟩
        · simp only [Prod.snd]
          constructor
          · intro _
            exact Or.inr ⟨r0, rfl, Or.inr h10⟩
          · intro _
            trivial
        · intro r0' heq hid'
          simp only [List.cons.injEq, and_true] at heq
          subst heq
          exact absurd hid' hid
        · intro r0' heq hne h10'
          refine ⟨setResponsibleById_id_val _ u "y", ?_, ?_⟩
          · intro x hx hxenv hxid
            obtain ⟨m, hm, hxeq⟩ := mem_setResponsibleById _ u "y" x hx
            by_cases hmid : m.id = u
            · rw [hxeq] at hxid
              simp [hmid] at hxid
            · rw [hxeq] at hxenv ⊢
              simp only [hmid, if_false] at hxenv ⊢
              obtain ⟨r, hr, hmeq⟩ := mem_setResponsibleByEnv _ envID "n" m hm
              by_cases hre : r.environment_id = envID
              · rw [hmeq]
                simp [hre]
              · rw [hmeq] at hxenv
                simp [hre] at hxenv
          · obtain ⟨x, hx, hxid⟩ := setResponsibleById_exists_id _ u "y"
              (setResponsibleByEnv_exists_id _ envID "n" u
                (upsert_mem_id reg u envID now))
            exact ⟨x, hx, hxid, setResponsibleById_id_val _ u "y" x hx hxid⟩
        · intro r0' heq hne h10'
          simp only [List.cons.injEq, and_true] at heq
          subst heq
          exact absurd h10 h10'
      · rw [if_neg h10]
        refine ⟨?_, by simp, ?_, ?_, ?_⟩
        · simp only [Prod.snd]
          constructor
          · intro hcontr
            cases hcontr
          · intro hcontr
            rcases hcontr with hcontr | ⟨r0', heq, hc⟩
            · cases hcontr
            · simp only [List.cons.injEq, and_true] at heq
              subst heq
              rcases hc with hc | hc
              · exact absurd hc hid
              · exact absurd hc h10
        · intro r0' heq hid'
          simp only [List.cons.injEq, and_true] at heq
          subst heq
          exact absurd hid' hid
        · intro r0' heq hne h10'
          simp only [List.cons.injEq, and_true] at heq
          subst heq
          exact absurd h10' h10
        · intro r0' heq hne h10'
          exact ⟨rfl, rfl⟩

/-- C2 witness: on an empty registry the replica claims: justTakenOver. -/
theorem ha_C2_witness : (electionTx [] 1 2 0).2 = true :=
  (ha_C2 [] 1 2 0 (by decide)).1.mpr (Or.inl (by decide))

/-! Computation lemmas for the two-replica convergence run. -/

lemma tick_of_decide_try (h : HA) (reg : List InstanceRow) (envID : Nat)
    (now : Int) (hda : decideAction h now = (h, .tryTakeover)) :
    tick h reg envID now =
      ⟨(postElection h now (electionTx reg h.ourUUID envID now).2).1,
        (electionTx reg h.ourUUID envID now).1, .tryTakeover,
        (electionTx reg h.ourUUID envID now).2,
        (postElection h now (electionTx reg h.ourUUID envID now).2).2.1,
        (postElection h now (electionTx reg h.ourUUID envID now).2).2.2⟩ := by
  simp [tick, hda]

lemma tick_of_decide_do (h : HA) (reg : List InstanceRow) (envID : Nat)
    (now : Int) (hda : decideAction h now = (h, .doTakeover)) :
    tick h reg envID now =
      ⟨(postElection h now (electionTx reg h.ourUUID envID now).2).1,
        (electionTx reg h.ourUUID envID now).1, .doTakeover,
        (electionTx reg h.ourUUID envID now).2,
        (postElection h now (electionTx reg h.ourUUID envID now).2).2.1,
        (postElection h now (electionTx reg h.ourUUID envID now).2).2.2⟩ := by
  simp [tick, hda]

/-- Election of the incumbent itself on the two-row converged registry:
its heartbeat is refreshed and justTakenOver holds. -/
lemma elect_self (uW uL envID : Nat) (hne : uL ≠ uW) (hbW hbL now : Int) :
    electionTx [⟨uW, envID, hbW, "y"⟩, ⟨uL, envID, hbL, "n"⟩] uW envID now =
      ([⟨uW, envID, now, "y"⟩, ⟨uL, envID, hbL, "n"⟩], true) := by
  have hup : upsert [⟨uW, envID, hbW, "y"⟩, ⟨uL, envID, hbL, "n"⟩]
      uW envID now = [⟨uW, envID, now, "y"⟩, ⟨uL, envID, hbL, "n"⟩] := by
    unfold upsert
    rw [if_pos (by simp)]
    simp [hne]
  have hsel : selectResponsibleRows
      [⟨uW, envID, now, "y"⟩, ⟨uL, envID, hbL, "n"⟩] envID =
      [⟨uW, envID, now, "y"⟩] := by
    simp [selectResponsibleRows]
  simp only [electionTx, hup, hsel]
  simp

/-- Election of the standby against a fresh incumbent on the converged
registry: only the standby's heartbeat is refreshed, justTakenOver fails. -/
lemma elect_peer_fresh (uW uL envID : Nat) (hne : uW ≠ uL)
    (hbW hbL now : Int) (hfresh : ¬(now - hbW ≥ 10)) :
    electionTx [⟨uW, envID, hbW, "y"⟩, ⟨uL, envID, hbL, "n"⟩] uL envID now =
      ([⟨uW, envID, hbW, "y"⟩, ⟨uL, envID, now, "n"⟩], false) := by
  have hup : upsert [⟨uW, envID, hbW, "y"⟩, ⟨uL, envID, hbL, "n"⟩]
      uL envID now = [⟨uW, envID, hbW, "y"⟩, ⟨uL, envID, now, "n"⟩] := by
    unfold upsert
    rw [if_pos (by simp)]
    simp [hne]
  have hsel : selectResponsibleRows
      [⟨uW, envID, hbW, "y"⟩, ⟨uL, envID, now, "n"⟩] envID =
      [⟨uW, envID, hbW, "y"⟩] := by
    simp [selectResponsibleRows]
  simp only [electionTx, hup, hsel]
  simp [hne, hfresh]

/-- First election on an empty registry: insert and claim. -/
lemma elect_empty (u envID : Nat) (now : Int) :
    electionTx [] u envID now = ([⟨u, envID, now, "y"⟩], true) := by
  have hup : upsert [] u envID now = [⟨u, envID, now, "n"⟩] := by
    unfold upsert
    rw [if_neg (by simp)]
    rfl
  have hsel : selectResponsibleRows [⟨u, envID, now, "n"⟩] envID = [] := by
    simp [selectResponsibleRows]
  simp only [electionTx, hup, hsel]
  simp [setResponsibleById]

/-- First election of the standby: inserts its row with "n" and yields to
the fresh incumbent. -/
lemma elect_insert_standby (uW uL envID : Nat) (hne : uW ≠ uL)
    (hbW now : Int) (hfresh : ¬(now - hbW ≥ 10)) :
    electionTx [⟨uW, envID, hbW, "y"⟩] uL envID now =
      ([⟨uW, envID, hbW, "y"⟩, ⟨uL, envID, now, "n"⟩], false) := by
  have hup : upsert [⟨uW, envID, hbW, "y"⟩] uL envID now =
      [⟨uW, envID, hbW, "y"⟩, ⟨uL, envID, now, "n"⟩] := by
    unfold upsert
    rw [if_neg (by simp [hne])]
    rfl
  have hsel : selectResponsibleRows
      [⟨uW, envID, hbW, "y"⟩, ⟨uL, envID, now, "n"⟩] envID =
      [⟨uW, envID, hbW, "y"⟩] := by
    simp [selectResponsibleRows]
  simp only [electionTx, hup, hsel]
  simp [hne, hfresh]

/-- The holder's second: heartbeat refresh, self-election, and after 5
seconds of responsibility the promotion to TakeoverSync. -/
lemma replicaTick_holder (uW uL envID : Nat) (hne : uL ≠ uW) (n : Nat)
    (hbW hbL : Int) :
    replicaTick (holderHA uW n)
        [⟨uW, envID, hbW, "y"⟩, ⟨uL, envID, hbL, "n"⟩] envID (n : Int) =
      (holderHA uW (n + 1),
        [⟨uW, envID, (n : Int), "y"⟩, ⟨uL, envID, hbL, "n"⟩]) := by
  have hal : (n : Int) - (n : Int) < 15 := by omega
  have hcast : ((n + 1 : Nat) : Int) - 1 = (n : Int) := by push_cast; ring
  by_cases hn6 : 6 ≤ n
  · have h5 : (n : Int) - 0 ≥ 5 := by omega
    have hh : Icinga2HeartBeat (holderHA uW n) (n : Int) =
        ⟨uW, (n : Int), .TakeoverSync, some 0, 0, 0⟩ := by
      simp [Icinga2HeartBeat, holderHA, hn6]
    have hda : decideAction
        (⟨uW, (n : Int), .TakeoverSync, some 0, 0, 0⟩ : HA) (n : Int) =
        ((⟨uW, (n : Int), .TakeoverSync, some 0, 0, 0⟩ : HA), .doTakeover) := by
      simp [decideAction, tickSwitch, icinga2IsAlive, hal]
    unfold replicaTick
    rw [hh, tick_of_decide_do _ _ _ _ hda]
    have helect := elect_self uW uL envID hne hbW hbL (n : Int)
    simp only [helect]
    rw [postElection_confirm _ _ 0 (by simp) rfl h5]
    simp [holderHA, hcast, show 6 ≤ n + 1 by omega]
  · have hh : Icinga2HeartBeat (holderHA uW n) (n : Int) =
        ⟨uW, (n : Int), .TakeoverNoSync, some 0, 0, 0⟩ := by
      simp [Icinga2HeartBeat, holderHA, hn6]
    have hda : decideAction
        (⟨uW, (n : Int), .TakeoverNoSync, some 0, 0, 0⟩ : HA) (n : Int) =
        ((⟨uW, (n : Int), .TakeoverNoSync, some 0, 0, 0⟩ : HA),
          .tryTakeover) := by
      simp [decideAction, tickSwitch, icinga2IsAlive, hal]
    unfold replicaTick
    rw [hh, tick_of_decide_try _ _ _ _ hda]
    have helect := elect_self uW uL envID hne hbW hbL (n : Int)
    simp only [helect]
    by_cases hn5 : 5 ≤ n
    · have h5 : (n : Int) - 0 ≥ 5 := by omega
      rw [postElection_confirm _ _ 0 (by simp) rfl h5]
      simp [holderHA, hcast, show 6 ≤ n + 1 by omega]
    · have h5 : ¬((n : Int) - 0 ≥ 5) := by omega
      rw [postElection_wait _ _ 0 (by simp) rfl h5]
      simp [holderHA, hcast, show ¬(6 ≤ n + 1) by omega]

/-- The standby's second: heartbeat refresh, upsert of its row, yield to
the fresh incumbent, no state change. -/
lemma replicaTick_standby (uW uL envID : Nat) (hne : uW ≠ uL) (m n : Nat)
    (hbW hbL : Int) (hfresh : ¬((n : Int) - hbW ≥ 10)) :
    replicaTick (standbyHA uL m)
        [⟨uW, envID, hbW, "y"⟩, ⟨uL, envID, hbL, "n"⟩] envID (n : Int) =
      (standbyHA uL (n + 1),
        [⟨uW, envID, hbW, "y"⟩, ⟨uL, envID, (n : Int), "n"⟩]) := by
  have hal : (n : Int) - (n : Int) < 15 := by omega
  have hcast : ((n + 1 : Nat) : Int) - 1 = (n : Int) := by push_cast; ring
  have hh : Icinga2HeartBeat (standbyHA uL m) (n : Int) =
      ⟨uL, (n : Int), .readyForTakeover, none, 0, 0⟩ := by
    simp [Icinga2HeartBeat, standbyHA]
  have hda : decideAction
      (⟨uL, (n : Int), .readyForTakeover, none, 0, 0⟩ : HA) (n : Int) =
      ((⟨uL, (n : Int), .readyForTakeover, none, 0, 0⟩ : HA),
        .tryTakeover) := by
    simp [decideAction, tickSwitch, icinga2IsAlive, hal]
  unfold replicaTick
  rw [hh, tick_of_decide_try _ _ _ _ hda]
  have helect := elect_peer_fresh uW uL envID hne hbW hbL (n : Int) hfresh
  simp only [helect]
  rw [postElection_false]
  simp [standbyHA, hcast]

/-- Second 0, first-scheduled replica: claims the empty registry. -/
lemma replicaTick_init_winner (u envID : Nat) :
    replicaTick (initHA u) [] envID 0 =
      (holderHA u 1, [⟨u, envID, 0, "y"⟩]) := by
  have hda : decideAction
      (⟨u, 0, .readyForTakeover, none, 0, 0⟩ : HA) 0 =
      ((⟨u, 0, .readyForTakeover, none, 0, 0⟩ : HA), .tryTakeover) := by
    simp [decideAction, tickSwitch, icinga2IsAlive]
  have hh : Icinga2HeartBeat (initHA u) 0 =
      ⟨u, 0, .readyForTakeover, none, 0, 0⟩ := rfl
  unfold replicaTick
  rw [hh, tick_of_decide_try _ _ _ _ hda]
  have helect := elect_empty u envID 0
  simp only [helect]
  rw [postElection_start _ _ (by simp) rfl]
  simp [holderHA]

/-- Second 0, second-scheduled replica: inserts its row and stands by. -/
lemma replicaTick_init_standby (uW uL envID : Nat) (hne : uW ≠ uL) :
    replicaTick (initHA uL) [⟨uW, envID, 0, "y"⟩] envID 0 =
      (standbyHA uL 1, convergedReg uW uL envID 1) := by
  have hda : decideAction
      (⟨uL, 0, .readyForTakeover, none, 0, 0⟩ : HA) 0 =
      ((⟨uL, 0, .readyForTakeover, none, 0, 0⟩ : HA), .tryTakeover) := by
    simp [decideAction, tickSwitch, icinga2IsAlive]
  have hh : Icinga2HeartBeat (initHA uL) 0 =
      ⟨uL, 0, .readyForTakeover, none, 0, 0⟩ := rfl
  unfold replicaTick
  rw [hh, tick_of_decide_try _ _ _ _ hda]
  have helect := elect_insert_standby uW uL envID hne 0 0 (by omega)
  simp only [helect]
  rw [postElection_false]
  simp [standbyHA, convergedReg]

/-- The convergence invariant of the two-replica run: from second 1 on, the
replica scheduled first at second 0 holds the responsible row with
responsibleSince = 0 and is in TakeoverNoSync until its tick of second 5,
TakeoverSync from the state at second 6 on, the other stands by, and the
registry holds exactly the two rows with fresh heartbeats. -/
lemma sysRun_inv (σ : Nat → Bool) (uA uB envID : Nat) (hne : uA ≠ uB) :
    ∀ n : Nat, 1 ≤ n →
      ((σ 0 = true → sysRun σ uA uB envID n =
        ⟨holderHA uA n, standbyHA uB n, convergedReg uA uB envID n⟩) ∧
       (σ 0 = false → sysRun σ uA uB envID n =
        ⟨standbyHA uA n, holderHA uB n, convergedReg uB uA envID n⟩)) := by
  intro n
  induction n with
  | zero => intro h; exact absurd h (by omega)
  | succ n ih =>
    intro _
    rcases Nat.eq_zero_or_pos n with h0 | hpos
    · subst h0
      constructor
      · intro hσ
        have e1 := replicaTick_init_winner uA envID
        have e2 := replicaTick_init_standby uA uB envID hne
        simp only [sysRun, sysStep, hσ, if_true, Nat.cast_zero]
        rw [e1]
        simp only []
        rw [e2]
      · intro hσ
        have e1 := replicaTick_init_winner uB envID
        have e2 := replicaTick_init_standby uB uA envID (Ne.symm hne)
        simp only [sysRun, sysStep, hσ, Bool.false_eq_true, if_false,
          Nat.cast_zero]
        rw [e1]
        simp only []
        rw [e2]
    · constructor
      · intro hσ
        have hreg := (ih hpos).1 hσ
        have hBA : uB ≠ uA := Ne.symm hne
        rcases hσn : σ n with _ | _
        · simp only [sysRun, hreg, sysStep, hσn, Bool.false_eq_true,
            if_false, convergedReg]
          rw [replicaTick_standby uA uB envID hne n n ((n : Int) - 1)
            ((n : Int) - 1) (by omega)]
          simp only []
          rw [replicaTick_holder uA uB envID hBA n ((n : Int) - 1) (n : Int)]
          simp only [convergedReg]
          have hcast : ((n + 1 : Nat) : Int) - 1 = (n : Int) := by
            push_cast; ring
          rw [hcast]
        · simp only [sysRun, hreg, sysStep, hσn, if_true, convergedReg]
          rw [replicaTick_holder uA uB envID hBA n ((n : Int) - 1)
            ((n : Int) - 1)]
          simp only []
          rw [replicaTick_standby uA uB envID hne n n (n : Int)
            ((n : Int) - 1) (by omega)]
          simp only [convergedReg]
          have hcast : ((n + 1 : Nat) : Int) - 1 = (n : Int) := by
            push_cast; ring
          rw [hcast]
      · intro hσ
        have hreg := (ih hpos).2 hσ
        have hBA : uB ≠ uA := Ne.symm hne
        rcases hσn : σ n with _ | _
        · simp only [sysRun, hreg, sysStep, hσn, Bool.false_eq_true,
            if_false, convergedReg]
          rw [replicaTick_holder uB uA envID hne n ((n : Int) - 1)
            ((n : Int) - 1)]
          simp only []
          rw [replicaTick_standby uB uA envID hBA n n (n : Int)
            ((n : Int) - 1) (by omega)]
          simp only [convergedReg]
          have hcast : ((n + 1 : Nat) : Int) - 1 = (n : Int) := by
            push_cast; ring
          rw [hcast]
        · simp only [sysRun, hreg, sysStep, hσn, if_true, convergedReg]
          rw [replicaTick_standby uB uA envID hBA n n ((n : Int) - 1)
            ((n : Int) - 1) (by omega)]
          simp only []
          rw [replicaTick_holder uB uA envID hne n ((n : Int) - 1) (n : Int)]
          simp only [convergedReg]
          have hcast : ((n + 1 : Nat) : Int) - 1 = (n : Int) := by
            push_cast; ring
          rw [hcast]

/-- C1: for every schedule of the two replicas (whole ticks serialized in
either order each second, both upstream heartbeats non-stale), from second
11 on exactly one replica is in TakeoverSync; and at every second at most
one registry row of the environment is marked responsible. -/
theorem ha_C1 (σ : Nat → Bool) (uA uB envID : Nat) (hne : uA ≠ uB)
    (n : Nat) (hn : 11 ≤ n) :
    (((sysRun σ uA uB envID n).a.responsibility =
        Responsibility.TakeoverSync ∧
      (sysRun σ uA uB envID n).b.responsibility ≠
        Responsibility.TakeoverSync) ∨
     ((sysRun σ uA uB envID n).a.responsibility ≠
        Responsibility.TakeoverSync ∧
      (sysRun σ uA uB envID n).b.responsibility =
        Responsibility.TakeoverSync))
    ∧ ∀ m : Nat,
        responsibleCount (sysRun σ uA uB envID m).registry envID ≤ 1 := by
  have hinv := sysRun_inv σ uA uB envID hne
  constructor
  · rcases hσ : σ 0 with _ | _
    · rw [(hinv n (by omega)).2 hσ]
      right
      constructor
      · simp [standbyHA]
      · simp [holderHA, show 6 ≤ n by omega]
    · rw [(hinv n (by omega)).1 hσ]
      left
      constructor
      · simp [holderHA, show 6 ≤ n by omega]
      · simp [standbyHA]
  · intro m
    rcases Nat.eq_zero_or_pos m with h0 | hpos
    · subst h0
      simp [sysRun, responsibleCount, selectResponsibleRows]
    · rcases hσ : σ 0 with _ | _
      · rw [(hinv m hpos).2 hσ]
        simp [responsibleCount, selectResponsibleRows, convergedReg]
      · rw [(hinv m hpos).1 hσ]
        simp [responsibleCount, selectResponsibleRows, convergedReg]

/-- C1 witness: with both replicas always scheduled A-first, at second 11
exactly replica A is in TakeoverSync. -/
theorem ha_C1_witness :
    (((sysRun (fun _ => true) 0 1 2 11).a.responsibility =
        Responsibility.TakeoverSync ∧
      (sysRun (fun _ => true) 0 1 2 11).b.responsibility ≠
        Responsibility.TakeoverSync) ∨
     ((sysRun (fun _ => true) 0 1 2 11).a.responsibility ≠
        Responsibility.TakeoverSync ∧
      (sysRun (fun _ => true) 0 1 2 11).b.responsibility =
        Responsibility.TakeoverSync))
    ∧ ∀ m : Nat,
        responsibleCount (sysRun (fun _ => true) 0 1 2 m).registry 2 ≤ 1 :=
  ha_C1 (fun _ => true) 0 1 2 (by decide) 11 (by decide)

end IcingadbHA
